import Mathlib

/-!
Shallow embedding of the LDPM repository: the schedule-form cron building and
validation logic, the display filtering, counting and power-toggle logic of
the frontend, and — for the device-control backend that is absent from the
sources — retry and protocol-fallback behaviour modelled from the
specification.  Strings are embedded as lists of characters.
-/

/-- Characters treated as whitespace by trimming and field splitting. -/
def isWs (c : Char) : Bool :=
  c = ' ' || c = '\t' || c = '\n' || c = '\r'

/-- Embedding of JavaScript String.trim: strip leading and trailing whitespace. -/
def trimStr (s : List Char) : List Char :=
  ((s.dropWhile isWs).reverse.dropWhile isWs).reverse

/-- Maximal non-whitespace runs of a character list, accumulating the current
run in reverse: helper for the whitespace-run field splitter. -/
def fieldsAux : List Char → List Char → List (List Char)
  | [], cur => if cur.isEmpty then [] else [cur.reverse]
  | c :: cs, cur =>
    if isWs c then
      if cur.isEmpty then fieldsAux cs [] else cur.reverse :: fieldsAux cs []
    else fieldsAux cs (c :: cur)

/-- Fields produced by splitting on runs of whitespace, as the regex split of
the schedule-form validation does on a trimmed cron expression. -/
def fieldsWs (s : List Char) : List (List Char) := fieldsAux s []

/-- Split on single space characters, keeping empty fields: the field view of
a cron string joined with single spaces. -/
def splitOnSpace : List Char → List (List Char)
  | [] => [[]]
  | c :: cs =>
    if c = ' ' then [] :: splitOnSpace cs
    else
      match splitOnSpace cs with
      | [] => [[c]]
      | f :: rest => (c :: f) :: rest

/-- Embedding of Array.prototype.join with a comma separator. -/
def joinComma : List (List Char) → List Char
  | [] => []
  | [x] => x
  | x :: y :: ys => x ++ ',' :: joinComma (y :: ys)

/-- Decimal rendering of an integer, as JavaScript number-to-string produces
on integral values. -/
def showInt (i : Int) : List Char := (toString i).data

/-- Embedding of padStart with target length two and the zero digit. -/
def padStart2 (s : List Char) : List Char :=
  if 2 ≤ s.length then s else List.replicate (2 - s.length) '0' ++ s

/-- Weekday toggles of the Create Schedule form, in the key order of the
formData.weekdays object literal: monday first, sunday last. -/
structure Weekdays where
  monday : Bool
  tuesday : Bool
  wednesday : Bool
  thursday : Bool
  friday : Bool
  saturday : Bool
  sunday : Bool
  deriving DecidableEq

/-- Index-value pairs of Object.entries over the weekdays object, with each
entry paired with its position as in the map callback of buildCronExpression. -/
def weekdayPairs (w : Weekdays) : List (Nat × Bool) :=
  [(0, w.monday), (1, w.tuesday), (2, w.wednesday), (3, w.thursday),
   (4, w.friday), (5, w.saturday), (6, w.sunday)]

/-- Embedding of the selectedDays computation of buildCronExpression: map each
entry to its index when enabled and to minus one otherwise, then drop the
minus-one markers. -/
def selectedDays (w : Weekdays) : List Int :=
  ((weekdayPairs w).map (fun p => if p.2 then (p.1 : Int) else -1)).filter
    (fun d => d != -1)

/-- Embedding of the day-of-week field of buildCronExpression: a star when no
day is selected, otherwise the selected indices joined with commas. -/
def dayOfWeekField (w : Weekdays) : List Char :=
  if (selectedDays w).length = 0 then "*".data
  else joinComma ((selectedDays w).map showInt)

/-- State of the weekday-picker Create Schedule form read by
buildCronExpression. -/
structure WeekdayForm where
  minute : List Char
  hour : List Char
  weekdays : Weekdays
  deriving DecidableEq

/-- Embedding of buildCronExpression of CreateScheduleModal: the template of
minute, hour, two stars and the day-of-week field, separated by single
spaces. -/
def buildCronExpression (s : WeekdayForm) : List Char :=
  s.minute ++ " ".data ++ s.hour ++ " * * ".data ++ dayOfWeekField s.weekdays

/-- The sixty option strings generated for the minute select control. -/
def minuteOptions : List (List Char) :=
  (List.range 60).map (fun i => padStart2 (toString i).data)

/-- The twenty-four option strings generated for the hour select control. -/
def hourOptions : List (List Char) :=
  (List.range 24).map (fun i => padStart2 (toString i).data)

/-- Form state with only Sunday toggled on, at the default time of 08:00. -/
def onlySundayForm : WeekdayForm :=
  ⟨"00".data, "08".data, ⟨false, false, false, false, false, false, true⟩⟩

/-- Form state with only Monday toggled on, at the default time of 08:00. -/
def onlyMondayForm : WeekdayForm :=
  ⟨"00".data, "08".data, ⟨true, false, false, false, false, false, false⟩⟩

/-- Target-type radio selection of the free-text schedule form. -/
inductive TargetType
  | display
  | group
  deriving DecidableEq

/-- State of the free-text schedule-creation form of ScheduleCard.tsx read by
its validate and handleSubmit functions. -/
structure FreeScheduleForm where
  name : List Char
  cron_expression : List Char
  targetType : TargetType
  display_id : List Char
  group_id : List Char
  deriving DecidableEq

/-- Embedding of validate of the free-text schedule form: the list of error
keys recorded, in the order the checks run.  The cron check first requires a
non-empty trimmed expression and then exactly five whitespace-separated
fields; the target checks require a non-empty selection for the active
target type. -/
def validateFreeForm (f : FreeScheduleForm) : List (List Char) :=
  (if (trimStr f.name).isEmpty then ["name".data] else []) ++
  (if (trimStr f.cron_expression).isEmpty then ["cron_expression".data]
   else if (fieldsWs (trimStr f.cron_expression)).length = 5 then []
   else ["cron_expression".data]) ++
  (match f.targetType with
   | .display => if f.display_id.isEmpty then ["display_id".data] else []
   | .group => []) ++
  (match f.targetType with
   | .group => if f.group_id.isEmpty then ["group_id".data] else []
   | .display => [])

/-- Create-schedule request payload assembled by handleSubmit of the
free-text form: trimmed name, trimmed cron expression and the chosen
target. -/
structure SchedulePayload where
  name : List Char
  cron_expression : List Char
  targetType : TargetType
  target_id : List Char
  deriving DecidableEq

/-- Embedding of handleSubmit of the free-text form: the create-schedule
request issued, or none when validation records any error. -/
def submitFreeForm (f : FreeScheduleForm) : Option SchedulePayload :=
  if (validateFreeForm f).length = 0 then
    some ⟨trimStr f.name, trimStr f.cron_expression, f.targetType,
      match f.targetType with
      | .display => f.display_id
      | .group => f.group_id⟩
  else none

/-- Whether a target is selected on the free-text form: a display chosen when
the target type is display, a group chosen when it is group. -/
def targetChosen (f : FreeScheduleForm) : Prop :=
  match f.targetType with
  | .display => f.display_id ≠ []
  | .group => f.group_id ≠ []

/-- Options of a TanStack query as configured in useApi.ts: the query key and
the optional automatic refetch interval in milliseconds. -/
structure UseQueryOptions where
  queryKey : List (List Char)
  refetchInterval : Option Nat
  deriving DecidableEq

/-- Embedding of the useDisplays hook configuration: the displays query with
an automatic refetch every 30000 milliseconds. -/
def useDisplaysOptions : UseQueryOptions :=
  ⟨["displays".data], some 30000⟩

/-- Embedding of the useGroups hook configuration, which sets no refetch
interval. -/
def useGroupsOptions : UseQueryOptions :=
  ⟨["groups".data], none⟩

/-- Embedding of the useSchedules hook configuration, which sets no refetch
interval. -/
def useSchedulesOptions : UseQueryOptions :=
  ⟨["schedules".data], none⟩

/-- Display power status as declared by the Display interface of the frontend
types module: active, standby, offline or unknown. -/
inductive DisplayStatus
  | active
  | standby
  | offline
  | unknown
  deriving DecidableEq

/-- The string value of each declared display status. -/
def statusValue : DisplayStatus → List Char
  | .active => "active".data
  | .standby => "standby".data
  | .offline => "offline".data
  | .unknown => "unknown".data

/-- All declared display statuses, in declaration order. -/
def allDisplayStatuses : List DisplayStatus :=
  [.active, .standby, .offline, .unknown]

/-- Badge styling and label of StatusBadge for one status. -/
structure BadgeConfig where
  bg : List Char
  text : List Char
  label : List Char
  deriving DecidableEq

/-- Embedding of the statusConfig table of StatusBadge. -/
def statusConfig : DisplayStatus → BadgeConfig
  | .active =>
    ⟨"bg-green-100 dark:bg-green-900".data,
     "text-green-800 dark:text-green-300".data, "Active".data⟩
  | .standby =>
    ⟨"bg-yellow-100 dark:bg-yellow-900".data,
     "text-yellow-800 dark:text-yellow-300".data, "Standby".data⟩
  | .offline =>
    ⟨"bg-red-100 dark:bg-red-900".data,
     "text-red-800 dark:text-red-300".data, "Offline".data⟩
  | .unknown =>
    ⟨"bg-gray-100 dark:bg-gray-700".data,
     "text-gray-800 dark:text-gray-300".data, "Unknown".data⟩

/-- Read view of a display record as the frontend consumes it; the status is
kept as a raw string because DisplaysPage also compares it against a value
outside the declared union. -/
structure Display where
  id : Nat
  name : List Char
  ip_address : List Char
  location : List Char
  status : List Char
  deriving DecidableEq

/-- Power action requested by the UI power controls. -/
inductive PowerAction
  | on
  | off
  deriving DecidableEq

/-- Embedding of handleToggle of DisplayCard: request off when the display is
active and on otherwise. -/
def cardToggleAction (d : Display) : PowerAction :=
  if d.status = "active".data then .off else .on

/-- Embedding of the details-view power toggle of DisplaysPage, which derives
the requested action the same way. -/
def detailsToggleAction (d : Display) : PowerAction :=
  if d.status = "active".data then .off else .on

/-- Embedding of availableDisplays of ManageGroupDisplaysModal: the displays
whose id is not among the group's current display ids. -/
def availableDisplays (all : List Display) (currentIds : List Nat) :
    List Display :=
  all.filter (fun d => ! currentIds.contains d.id)

/-- Embedding of currentDisplays of ManageGroupDisplaysModal: the displays
whose id is among the group's current display ids. -/
def currentDisplays (all : List Display) (currentIds : List Nat) :
    List Display :=
  all.filter (fun d => currentIds.contains d.id)

/-- Filter selection of DisplaysPage. -/
inductive FilterType
  | all
  | online
  | offline
  | standby
  | unknown
  deriving DecidableEq

/-- Sort selection of DisplaysPage. -/
inductive SortType
  | nameAsc
  | nameDesc
  | idAsc
  | idDesc
  | status
  deriving DecidableEq

/-- Embedding of the filter switch of filteredAndSortedDisplays: which
displays pass each filter case. -/
def filterPred (f : FilterType) (d : Display) : Bool :=
  match f with
  | .all => true
  | .online => d.status == "active".data
  | .offline => d.status == "error".data || d.status == "offline".data
  | .standby => d.status == "standby".data
  | .unknown => d.status == "unknown".data

/-- Embedding of the filtering step of filteredAndSortedDisplays: the list is
left whole for the all filter and filtered by status otherwise. -/
def filterDisplays (f : FilterType) (l : List Display) : List Display :=
  if f = FilterType.all then l else l.filter (filterPred f)

/-- Lexicographic character-list comparison: the embedding of the string
comparison used by the name and status sort orders. -/
def cmpStr : List Char → List Char → Int
  | [], [] => 0
  | [], _ :: _ => -1
  | _ :: _, [] => 1
  | a :: as, b :: bs => if a = b then cmpStr as bs else if a < b then -1 else 1

/-- Embedding of the sort comparator of filteredAndSortedDisplays. -/
def cmpDisplays (s : SortType) (a b : Display) : Int :=
  match s with
  | .nameAsc => cmpStr a.name b.name
  | .nameDesc => cmpStr b.name a.name
  | .idAsc => (a.id : Int) - (b.id : Int)
  | .idDesc => (b.id : Int) - (a.id : Int)
  | .status => cmpStr a.status b.status

/-- Embedding of the sorting step of filteredAndSortedDisplays: a comparison
sort by the selected comparator. -/
def sortDisplays (s : SortType) (l : List Display) : List Display :=
  List.insertionSort (fun a b => cmpDisplays s a b ≤ 0) l

/-- Embedding of the filteredAndSortedDisplays memo of DisplaysPage. -/
def filteredAndSortedDisplays (displays : List Display) (f : FilterType)
    (s : SortType) : List Display :=
  sortDisplays s (filterDisplays f displays)

/-- The counts shown on the DisplaysPage filter buttons. -/
structure StatusCounts where
  all : Nat
  online : Nat
  offline : Nat
  standby : Nat
  unknown : Nat
  deriving DecidableEq

/-- Embedding of the statusCounts memo of DisplaysPage. -/
def statusCounts (displays : List Display) : StatusCounts :=
  ⟨displays.length,
   (displays.filter (fun d => d.status == "active".data)).length,
   (displays.filter
     (fun d => d.status == "error".data || d.status == "offline".data)).length,
   (displays.filter (fun d => d.status == "standby".data)).length,
   (displays.filter (fun d => d.status == "unknown".data)).length⟩

/-- The four status values the Display interface declares. -/
def declaredStatusValues : List (List Char) :=
  ["active".data, "standby".data, "offline".data, "unknown".data]

/-- Error taxonomy of the device-control core, as the specification's section
on error handling lays it out. -/
inductive ErrKind
  | timeout
  | networkError
  | authError
  | protocolUnsupported
  | deviceError
  deriving DecidableEq

/-- Modelled from the spec: the transient errors, the only kinds retried
within one protocol (the device-control backend is not among the sources;
only its README documents it). -/
def isTransient : ErrKind → Bool
  | .timeout => true
  | .networkError => true
  | _ => false

/-- Modelled from the spec: the error kinds that make the adapter fall back
from the REST protocol to the Simple IP protocol; auth and device errors do
not. -/
def triggersFallback : ErrKind → Bool
  | .timeout => true
  | .networkError => true
  | .protocolUnsupported => true
  | _ => false

/-- Outcome of one protocol attempt. -/
inductive Outcome
  | ok
  | err (e : ErrKind)
  deriving DecidableEq

/-- The wire protocol that produced a result. -/
inductive Protocol
  | rest
  | simpleIp
  deriving DecidableEq

/-- Modelled from the spec: the exponential backoff schedule, in seconds, of
delays inserted before successive retries of one protocol. -/
def backoffDelays : List Nat := [1, 2, 4]

/-- Modelled from the spec: the retry loop of one protocol.  The behaviour of
the protocol is a stub giving the outcome of each attempt by index.  The
attempt at index k is made; on success or a non-transient error the loop
stops, and on a transient error it waits for the next backoff delay and
retries until the delay schedule is exhausted.  Returns the number of
attempts made, the delays waited, and the final outcome. -/
def retryAux (proto : Nat → Outcome) : Nat → List Nat →
    Nat × List Nat × Outcome
  | k, remaining =>
    match proto k with
    | .ok => (1, [], .ok)
    | .err e =>
      if isTransient e then
        match remaining with
        | [] => (1, [], .err e)
        | d :: rest =>
          let r := retryAux proto (k + 1) rest
          (r.1 + 1, d :: r.2.1, r.2.2)
      else (1, [], .err e)

/-- Trace of one protocol's retry loop: attempts made, backoff delays waited,
final outcome. -/
structure ProtocolTrace where
  attempts : Nat
  delays : List Nat
  outcome : Outcome
  deriving DecidableEq

/-- Modelled from the spec: run one protocol with the 1s, 2s, 4s backoff
schedule. -/
def runProtocol (proto : Nat → Outcome) : ProtocolTrace :=
  let r := retryAux proto 0 backoffDelays
  ⟨r.1, r.2.1, r.2.2⟩

/-- Trace of one DeviceAdapter run: attempts made on each protocol, the
protocol that produced the final result, and that result. -/
structure AdapterTrace where
  restAttempts : Nat
  simpleAttempts : Nat
  protocolUsed : Protocol
  result : Outcome
  deriving DecidableEq

/-- Modelled from the spec: DeviceAdapter.run.  The REST protocol is tried
first through its retry loop; on success or a non-fallback error its result
is surfaced, and only on a fallback-triggering error is the Simple IP
protocol tried, once, through its own retry loop. -/
def adapterRun (restB simpleB : Nat → Outcome) : AdapterTrace :=
  let r := runProtocol restB
  match r.outcome with
  | .ok => ⟨r.attempts, 0, .rest, .ok⟩
  | .err e =>
    if triggersFallback e then
      let s := runProtocol simpleB
      ⟨r.attempts, s.attempts, .simpleIp, s.outcome⟩
    else ⟨r.attempts, 0, .rest, .err e⟩

/-- A sample display record with active status. -/
def sampleDisplayA : Display :=
  ⟨1, "Lobby".data, "192.168.1.50".data, "Lobby".data, "active".data⟩

/-- A sample display record with offline status. -/
def sampleDisplayB : Display :=
  ⟨2, "Cafe".data, "192.168.1.51".data, "Cafe".data, "offline".data⟩

/-- A sample display list over the declared statuses. -/
def sampleDisplays : List Display := [sampleDisplayA, sampleDisplayB]

/-- Protocol stub that times out on every attempt. -/
def alwaysTimeout : Nat → Outcome := fun _ => .err .timeout

/-- Protocol stub that reports a device error on every attempt. -/
def alwaysDeviceError : Nat → Outcome := fun _ => .err .deviceError

/-- Protocol stub that rejects authentication on every attempt. -/
def alwaysAuthError : Nat → Outcome := fun _ => .err .authError

/-- Protocol stub that succeeds on every attempt. -/
def alwaysOk : Nat → Outcome := fun _ => .ok

theorem splitOnSpace_no_space (a : List Char) (h : ' ' ∉ a) :
    splitOnSpace a = [a] := by
  induction a with
  | nil => rfl
  | cons c cs ih =>
    rw [List.mem_cons] at h
    push_neg at h
    obtain ⟨hc, hcs⟩ := h
    simp [splitOnSpace, Ne.symm hc, ih hcs]

theorem splitOnSpace_append (a rest : List Char) (h : ' ' ∉ a) :
    splitOnSpace (a ++ ' ' :: rest) = a :: splitOnSpace rest := by
  induction a with
  | nil => simp [splitOnSpace]
  | cons c cs ih =>
    rw [List.mem_cons] at h
    push_neg at h
    obtain ⟨hc, hcs⟩ := h
    simp [splitOnSpace, Ne.symm hc, ih hcs]

theorem minuteOptions_no_space : ∀ m ∈ minuteOptions, ' ' ∉ m := by decide

theorem hourOptions_no_space : ∀ m ∈ hourOptions, ' ' ∉ m := by decide

theorem dayOfWeekField_no_space (w : Weekdays) : ' ' ∉ dayOfWeekField w := by
  obtain ⟨a, b, c, d, e, f, g⟩ := w
  cases a <;> cases b <;> cases c <;> cases d <;> cases e <;> cases f <;>
    cases g <;> decide

theorem dayOfWeekField_star_iff (w : Weekdays) :
    dayOfWeekField w = "*".data ↔ selectedDays w = [] := by
  obtain ⟨a, b, c, d, e, f, g⟩ := w
  cases a <;> cases b <;> cases c <;> cases d <;> cases e <;> cases f <;>
    cases g <;> decide

theorem selectedDays_bounds (w : Weekdays) :
    ∀ d ∈ selectedDays w, 0 ≤ d ∧ d < 7 := by
  obtain ⟨a, b, c, d, e, f, g⟩ := w
  cases a <;> cases b <;> cases c <;> cases d <;> cases e <;> cases f <;>
    cases g <;> decide

/-- C1: in the cron expression produced by buildCronExpression, the day-of-week
indices follow the position of the keys of the weekdays object (monday = 0,
…, sunday = 6), so selecting only Sunday yields day-of-week field 6 and
selecting only Monday yields 0 — not the 0 = Sunday, 1 = Monday numbering the
cron consumer documents. -/
theorem buildCron_weekday_numbering :
    buildCronExpression onlySundayForm = "00 08 * * 6".data ∧
    buildCronExpression onlyMondayForm = "00 08 * * 0".data ∧
    ¬ buildCronExpression onlySundayForm = "00 08 * * 0".data ∧
    ¬ buildCronExpression onlyMondayForm = "00 08 * * 1".data := by decide

/-- C3: for every reachable state of the weekday-picker form, the built cron
expression splits on spaces into exactly the five fields minute, hour, star,
star and day-of-week; the day-of-week field is a star exactly when no weekday
is selected, and otherwise is the comma-joined list of integers between 0
and 6. -/
theorem buildCron_shape (s : WeekdayForm)
    (hm : s.minute ∈ minuteOptions) (hh : s.hour ∈ hourOptions) :
    splitOnSpace (buildCronExpression s) =
      [s.minute, s.hour, "*".data, "*".data, dayOfWeekField s.weekdays] ∧
    (dayOfWeekField s.weekdays = "*".data ↔ selectedDays s.weekdays = []) ∧
    (selectedDays s.weekdays ≠ [] →
      dayOfWeekField s.weekdays =
        joinComma ((selectedDays s.weekdays).map showInt) ∧
      ∀ d ∈ selectedDays s.weekdays, 0 ≤ d ∧ d < 7) := by
  refine ⟨?_, dayOfWeekField_star_iff s.weekdays, fun hne => ⟨?_, selectedDays_bounds s.weekdays⟩⟩
  · have h1 : ' ' ∉ s.minute := minuteOptions_no_space s.minute hm
    have h2 : ' ' ∉ s.hour := hourOptions_no_space s.hour hh
    have h3 : ' ' ∉ dayOfWeekField s.weekdays := dayOfWeekField_no_space s.weekdays
    have hstar : ' ' ∉ (['*'] : List Char) := by decide
    have hb : buildCronExpression s =
        s.minute ++ ' ' :: (s.hour ++ ' ' ::
          (['*'] ++ ' ' :: (['*'] ++ ' ' :: dayOfWeekField s.weekdays))) := by
      show s.minute ++ " ".data ++ s.hour ++ " * * ".data ++
          dayOfWeekField s.weekdays = _
      simp
    rw [hb, splitOnSpace_append _ _ h1, splitOnSpace_append _ _ h2,
      splitOnSpace_append _ _ hstar, splitOnSpace_append _ _ hstar,
      splitOnSpace_no_space _ h3]
  · have hlen : ¬ (selectedDays s.weekdays).length = 0 := by
      simpa [List.length_eq_zero] using hne
    simp [dayOfWeekField, hlen]

/-- Witness for buildCron_shape at the Monday-only form state. -/
theorem buildCron_shape_witness :
    onlyMondayForm.minute ∈ minuteOptions ∧
    onlyMondayForm.hour ∈ hourOptions ∧
    (splitOnSpace (buildCronExpression onlyMondayForm) =
      [onlyMondayForm.minute, onlyMondayForm.hour, "*".data, "*".data,
        dayOfWeekField onlyMondayForm.weekdays] ∧
    (dayOfWeekField onlyMondayForm.weekdays = "*".data ↔
      selectedDays onlyMondayForm.weekdays = []) ∧
    (selectedDays onlyMondayForm.weekdays ≠ [] →
      dayOfWeekField onlyMondayForm.weekdays =
        joinComma ((selectedDays onlyMondayForm.weekdays).map showInt) ∧
      ∀ d ∈ selectedDays onlyMondayForm.weekdays, 0 ≤ d ∧ d < 7)) :=
  ⟨by decide, by decide, buildCron_shape onlyMondayForm (by decide) (by decide)⟩

theorem submit_iff_no_errors (f : FreeScheduleForm) :
    ((submitFreeForm f).isSome = true ↔ validateFreeForm f = []) ∧
    (submitFreeForm f = none ↔ validateFreeForm f ≠ []) := by
  by_cases hv : validateFreeForm f = []
  · have hl : (validateFreeForm f).length = 0 := by simp [hv]
    simp [submitFreeForm, hl, hv]
  · have hl : ¬ (validateFreeForm f).length = 0 := by
      simpa [List.length_eq_zero] using hv
    simp [submitFreeForm, hl, hv]

theorem validate_empty_iff (f : FreeScheduleForm) :
    validateFreeForm f = [] ↔
      trimStr f.name ≠ [] ∧
        (fieldsWs (trimStr f.cron_expression)).length = 5 ∧ targetChosen f := by
  obtain ⟨n, ce, tt, did, gid⟩ := f
  have hfe : fieldsWs ([] : List Char) = [] := rfl
  cases tt <;>
    · simp only [validateFreeForm, targetChosen]
      split_ifs <;>
        simp_all [List.isEmpty_iff, hfe]

/-- C2: the free-text schedule form sends a create-schedule request exactly
when the trimmed name is non-empty, the trimmed cron expression splits into
exactly five whitespace-separated fields, and a target display or group is
selected; otherwise a validation error is recorded and no request is made. -/
theorem freeform_submit_iff_valid (f : FreeScheduleForm) :
    ((submitFreeForm f).isSome = true ↔
      trimStr f.name ≠ [] ∧
        (fieldsWs (trimStr f.cron_expression)).length = 5 ∧ targetChosen f) ∧
    (submitFreeForm f = none ↔ validateFreeForm f ≠ []) :=
  ⟨(submit_iff_no_errors f).1.trans (validate_empty_iff f),
    (submit_iff_no_errors f).2⟩

/-- C4: the useDisplays query is configured with an automatic refetch
interval of 30000 milliseconds, i.e. 30 seconds. -/
theorem useDisplays_refetch_interval :
    useDisplaysOptions.refetchInterval = some (30 * 1000) ∧
    useDisplaysOptions.queryKey = ["displays".data] := by decide

/-- C5 counterexample: the value named by the claim for the powered-on state
is not among the status values the Display type declares and StatusBadge
accepts; the code's value for that state is a different string. -/
theorem status_on_not_declared :
    "on".data ∉ allDisplayStatuses.map statusValue ∧
    "active".data ∈ allDisplayStatuses.map statusValue := by decide

/-- C5 (amended): every display status is one of the four declared values
active, standby, offline, unknown, and StatusBadge maps exactly these four
states each to exactly one label. -/
theorem status_set_and_labels :
    allDisplayStatuses.map statusValue = declaredStatusValues ∧
    (∀ s : DisplayStatus, s ∈ allDisplayStatuses) ∧
    allDisplayStatuses.Nodup ∧
    allDisplayStatuses.map (fun s => (statusConfig s).label) =
      ["Active".data, "Standby".data, "Offline".data, "Unknown".data] ∧
    (allDisplayStatuses.map (fun s => (statusConfig s).label)).Nodup := by
  refine ⟨by decide, fun s => ?_, by decide, by decide, by decide⟩
  cases s <;> decide

/-- C8: in ManageGroupDisplaysModal the available and current display lists
partition the full display list: a display is current exactly when its id is
among the group's current ids, available exactly otherwise, no display is in
both, and the two lengths sum to the whole list's length. -/
theorem group_modal_partition (all : List Display) (ids : List Nat)
    (d : Display) :
    (d ∈ currentDisplays all ids ↔ d ∈ all ∧ d.id ∈ ids) ∧
    (d ∈ availableDisplays all ids ↔ d ∈ all ∧ d.id ∉ ids) ∧
    ¬ (d ∈ availableDisplays all ids ∧ d ∈ currentDisplays all ids) ∧
    (availableDisplays all ids).length + (currentDisplays all ids).length =
      all.length := by
  have hcur : d ∈ currentDisplays all ids ↔ d ∈ all ∧ d.id ∈ ids := by
    simp [currentDisplays, List.mem_filter, List.elem_iff]
  have hav : d ∈ availableDisplays all ids ↔ d ∈ all ∧ d.id ∉ ids := by
    simp [availableDisplays, List.mem_filter, List.elem_iff]
  refine ⟨hcur, hav, ?_, ?_⟩
  · rintro ⟨ha, hc⟩
    exact (hav.mp ha).2 (hcur.mp hc).2
  · induction all with
    | nil => rfl
    | cons x xs ih =>
      by_cases hx : x.id ∈ ids <;>
        simp [availableDisplays, currentDisplays, List.filter_cons, hx] at ih ⊢ <;>
        omega

theorem statusCounts_sum (displays : List Display)
    (h : ∀ x ∈ displays, x.status ∈ declaredStatusValues) :
    (statusCounts displays).all =
      (statusCounts displays).online + (statusCounts displays).offline +
        (statusCounts displays).standby + (statusCounts displays).unknown := by
  have key : ∀ st ∈ declaredStatusValues,
      ((if st == "active".data then 1 else 0) +
        (if st == "error".data || st == "offline".data then 1 else 0) +
        (if st == "standby".data then 1 else 0) +
        (if st == "unknown".data then 1 else 0) : Nat) = 1 := by decide
  revert h
  induction displays with
  | nil => intro h; rfl
  | cons x xs ih =>
    intro h
    have hx : x.status ∈ declaredStatusValues := h x (List.mem_cons_self x xs)
    have ihh := ih (fun y hy => h y (List.mem_cons_of_mem x hy))
    have hkey := key x.status hx
    simp only [statusCounts, ← List.countP_eq_length_filter, List.countP_cons,
      List.length_cons] at ihh hkey ⊢
    omega

/-- C9: when every display status is one of the four declared values, the
DisplaysPage counts partition the list (all equals online plus offline plus
standby plus unknown), each filter's filtered-and-sorted list has exactly the
corresponding count's length, and sorting never changes membership. -/
theorem displays_page_counts (displays : List Display) (f : FilterType)
    (s : SortType) (d : Display)
    (h : ∀ x ∈ displays, x.status ∈ declaredStatusValues) :
    (statusCounts displays).all =
      (statusCounts displays).online + (statusCounts displays).offline +
        (statusCounts displays).standby + (statusCounts displays).unknown ∧
    (filteredAndSortedDisplays displays .online s).length =
      (statusCounts displays).online ∧
    (filteredAndSortedDisplays displays .offline s).length =
      (statusCounts displays).offline ∧
    (filteredAndSortedDisplays displays .standby s).length =
      (statusCounts displays).standby ∧
    (filteredAndSortedDisplays displays .unknown s).length =
      (statusCounts displays).unknown ∧
    (filteredAndSortedDisplays displays .all s).length =
      (statusCounts displays).all ∧
    (d ∈ filteredAndSortedDisplays displays f s ↔
      d ∈ filterDisplays f displays) := by
  have hperm : ∀ g : FilterType,
      List.Perm (filteredAndSortedDisplays displays g s)
        (filterDisplays g displays) :=
    fun g => List.perm_insertionSort _ _
  have hlen : ∀ g : FilterType,
      (filteredAndSortedDisplays displays g s).length =
        (filterDisplays g displays).length :=
    fun g => (hperm g).length_eq
  refine ⟨statusCounts_sum displays h, ?_, ?_, ?_, ?_, ?_, (hperm f).mem_iff⟩
  all_goals rw [hlen]
  all_goals rfl

/-- Witness for displays_page_counts at a two-display list. -/
theorem displays_page_counts_witness :
    (∀ x ∈ sampleDisplays, x.status ∈ declaredStatusValues) ∧
    ((statusCounts sampleDisplays).all =
      (statusCounts sampleDisplays).online +
        (statusCounts sampleDisplays).offline +
        (statusCounts sampleDisplays).standby +
        (statusCounts sampleDisplays).unknown ∧
    (filteredAndSortedDisplays sampleDisplays .online .nameAsc).length =
      (statusCounts sampleDisplays).online ∧
    (filteredAndSortedDisplays sampleDisplays .offline .nameAsc).length =
      (statusCounts sampleDisplays).offline ∧
    (filteredAndSortedDisplays sampleDisplays .standby .nameAsc).length =
      (statusCounts sampleDisplays).standby ∧
    (filteredAndSortedDisplays sampleDisplays .unknown .nameAsc).length =
      (statusCounts sampleDisplays).unknown ∧
    (filteredAndSortedDisplays sampleDisplays .all .nameAsc).length =
      (statusCounts sampleDisplays).all ∧
    (sampleDisplayA ∈ filteredAndSortedDisplays sampleDisplays .online .nameAsc ↔
      sampleDisplayA ∈ filterDisplays .online sampleDisplays)) :=
  ⟨by decide,
    displays_page_counts sampleDisplays .online .nameAsc sampleDisplayA
      (by decide)⟩

/-- C10: both the DisplayCard toggle and the DisplaysPage details-view toggle
request the off action exactly when the display's status is active, and the
on action for every other status. -/
theorem power_toggle_off_iff_active (d : Display) :
    (cardToggleAction d = .off ↔ d.status = "active".data) ∧
    (detailsToggleAction d = .off ↔ d.status = "active".data) ∧
    (cardToggleAction d = .on ↔ ¬ d.status = "active".data) ∧
    (detailsToggleAction d = .on ↔ ¬ d.status = "active".data) := by
  by_cases h : d.status = "active".data <;>
    simp [cardToggleAction, detailsToggleAction, h]

/-- C6: when the REST protocol's retry loop ends in an authentication error,
the adapter surfaces that error as the final result attributed to REST and
makes no Simple IP attempt; when the first REST attempt itself is the
authentication error, it is surfaced immediately after that single attempt. -/
theorem adapter_auth_error_no_fallback (restB simpleB : Nat → Outcome) :
    ((runProtocol restB).outcome = .err .authError →
      adapterRun restB simpleB =
        ⟨(runProtocol restB).attempts, 0, .rest, .err .authError⟩) ∧
    (restB 0 = .err .authError →
      adapterRun restB simpleB = ⟨1, 0, .rest, .err .authError⟩) := by
  constructor
  · intro hr
    simp [adapterRun, hr, triggersFallback]
  · intro h0
    have hr : runProtocol restB = ⟨1, [], .err .authError⟩ := by
      simp [runProtocol, backoffDelays, retryAux, h0, isTransient]
    simp [adapterRun, hr, triggersFallback]

/-- Witness for adapter_auth_error_no_fallback on an always-rejecting REST
stub. -/
theorem adapter_auth_error_witness :
    (runProtocol alwaysAuthError).outcome = .err .authError ∧
    alwaysAuthError 0 = .err .authError ∧
    adapterRun alwaysAuthError alwaysOk = ⟨1, 0, .rest, .err .authError⟩ :=
  ⟨by decide, by decide,
    (adapter_auth_error_no_fallback alwaysAuthError alwaysOk).2 (by decide)⟩

/-- C7: a protocol whose attempts keep failing with one transient error is
retried exactly three times, after backoff delays of 1, 2 and 4 seconds, and
then abandoned with that error after four attempts in total; a first attempt
failing with a non-transient error is not retried within the protocol. -/
theorem protocol_retry_schedule (p q : Nat → Outcome) (e t : ErrKind)
    (het : isTransient e = true) (hp : ∀ k, p k = .err e)
    (hnt : isTransient t = false) (hq : q 0 = .err t) :
    runProtocol p = ⟨4, [1, 2, 4], .err e⟩ ∧
    runProtocol q = ⟨1, [], .err t⟩ := by
  constructor
  · simp [runProtocol, backoffDelays, retryAux, hp 0, hp 1, hp 2, hp 3, het]
  · simp [runProtocol, backoffDelays, retryAux, hq, hnt]

/-- Witness for protocol_retry_schedule on always-timeout and
device-error stubs. -/
theorem protocol_retry_witness :
    isTransient .timeout = true ∧
    isTransient .deviceError = false ∧
    runProtocol alwaysTimeout = ⟨4, [1, 2, 4], .err .timeout⟩ ∧
    runProtocol alwaysDeviceError = ⟨1, [], .err .deviceError⟩ := by
  refine ⟨by decide, by decide, ?_, ?_⟩
  · exact (protocol_retry_schedule alwaysTimeout alwaysDeviceError .timeout
      .deviceError (by decide) (fun k => rfl) (by decide) rfl).1
  · exact (protocol_retry_schedule alwaysTimeout alwaysDeviceError .timeout
      .deviceError (by decide) (fun k => rfl) (by decide) rfl).2
